import Mathlib

set_option autoImplicit false

/-!
Verification of the Swarm orchestration layer (src/swarm_framework.py).

The Python module is embedded shallowly: every `Swarm` method becomes a pure
Lean function on an explicit `Swarm` state.  In-place mutation becomes
returning an updated state; a Python `raise` becomes the `Except.error`
branch, carrying the state as it stood at the moment of the raise (so that
claims about what a failed call mutated are statable).  The remote OpenAI
chat-completion call is an injected capability of type `Remote`; machine
details (timestamps from `datetime.now()`) are threaded as an explicit
`now : String` argument.
-/

/-- JSON-serializable primitive value, as stored in context variables and
message payloads.  Context values are opaque to the framework. -/
inductive JVal where
  | jnull : JVal
  | jbool (b : Bool) : JVal
  | jint (n : Int) : JVal
  | jstr (s : String) : JVal
deriving DecidableEq, Repr

/-- A callable capability held in an Agent functions list.  The framework
never invokes these (no function-calling execution), so only their presence
matters; they are not JSON-serializable. -/
def Callable : Type := String → String

/-- Python dict assignment d[k] = v on an insertion-ordered association list:
if the key is present its value is replaced in place (keeping its position),
otherwise the binding is appended at the end.  This is CPython dict
semantics, used for the agents registry and the context variables. -/
def dinsert {κ α : Type} [DecidableEq κ] (k : κ) (v : α) :
    List (κ × α) → List (κ × α)
  | [] => [(k, v)]
  | (k₁, v₁) :: rest =>
    if k₁ = k then (k, v) :: rest else (k₁, v₁) :: dinsert k v rest

/-- Python dict lookup d.get(k): first (and only) binding with the key. -/
def dlookup {κ α : Type} [DecidableEq κ] (k : κ) :
    List (κ × α) → Option α
  | [] => none
  | (k₁, v₁) :: rest => if k₁ = k then some v₁ else dlookup k rest

/-- Python d.update(other): fold d[k] = v over the entries of other. -/
def dupdate {κ α : Type} [DecidableEq κ] (d other : List (κ × α)) :
    List (κ × α) :=
  other.foldl (fun acc kv => dinsert kv.1 kv.2 acc) d

/-- The Agent dataclass (lines 15-27).  `temperature` is modelled as a
rational, `functions` keeps the callables. -/
structure Agent where
  name : String
  instructions : String
  functions : List Callable
  model : String
  temperature : Rat
  max_tokens : Nat

/-- The Message dataclass (lines 29-40).  After `__post_init__` the timestamp
is always a concrete string, so it is modelled as a plain field; construction
sites receive the current time explicitly. -/
structure Message where
  role : String
  content : String
  name : Option String
  function_call : Option (List (String × JVal))
  timestamp : String
deriving DecidableEq, Repr

/-- The SwarmResult dataclass (lines 42-47).  `context_variables` holds the
shallow copy taken at completion time. -/
structure SwarmResult where
  messages : List Message
  agent : Agent
  context_variables : List (String × JVal)

/-- The mutable state owned by a Swarm instance (lines 63-65). -/
structure Swarm where
  agents : List (String × Agent)
  conversation_history : List Message
  context_variables : List (String × JVal)

/-- Raised by Swarm.__init__ when no credential is available (line 60). -/
inductive ConfigError where
  | missingApiKey : ConfigError
deriving DecidableEq, Repr

/-- Python truthiness of an optional string: None and the empty string are
falsy (the `if api_key:` and `if not api_key` tests of lines 54-59). -/
def strTruthy : Option String → Bool
  | none => false
  | some s => !(s == "")

/-- Swarm.__init__ (lines 52-65): uses the explicit api_key parameter if
truthy, else the OPENAI_API_KEY environment value, else raises; on success
the registry, history and context start empty. -/
def mkSwarm (api_key : Option String) (env_api_key : Option String) :
    Except ConfigError Swarm :=
  if strTruthy api_key then
    .ok ⟨[], [], []⟩
  else if strTruthy env_api_key then
    .ok ⟨[], [], []⟩
  else
    .error .missingApiKey

/-- Swarm.add_agent (lines 67-70): dict assignment keyed by the agent name. -/
def Swarm.add_agent (s : Swarm) (agent : Agent) : Swarm :=
  { s with agents := dinsert agent.name agent s.agents }

/-- Swarm.get_agent (lines 80-82). -/
def Swarm.get_agent (s : Swarm) (agent_name : String) : Option Agent :=
  dlookup agent_name s.agents

/-- Swarm.list_agents (lines 84-86): the dict keys in insertion order. -/
def Swarm.list_agents (s : Swarm) : List String :=
  s.agents.map Prod.fst

/-- Swarm.set_context (lines 88-90). -/
def Swarm.set_context (s : Swarm) (key : String) (value : JVal) : Swarm :=
  { s with context_variables := dinsert key value s.context_variables }

/-- Swarm.add_message (lines 101-103). -/
def Swarm.add_message (s : Swarm) (message : Message) : Swarm :=
  { s with conversation_history := s.conversation_history ++ [message] }

/-- One role/content turn of the outbound OpenAI request (lines 135-148). -/
structure ApiMsg where
  role : String
  content : String
deriving DecidableEq, Repr

/-- The injected remote chat-completion capability: receives the outbound
turns and returns either the generated assistant content or a failure
description (whatever exception text the client raises). -/
def Remote : Type := List ApiMsg → Except String String

/-- The Python slice h[-max_turns:] of line 144: for max_turns = 0 this is
h[0:], the WHOLE list, otherwise the last max_turns elements (all of them
when the list is shorter). -/
def pySliceLast {α : Type} (k : Nat) (l : List α) : List α :=
  if k = 0 then l else l.drop (l.length - k)

/-- Lines 135-148: the outbound request is one system turn holding the agent
instructions followed by the trailing window of stored history. -/
def buildApiMessages (agent : Agent) (max_turns : Nat)
    (history : List Message) : List ApiMsg :=
  ⟨"system", agent.instructions⟩ ::
    (pySliceLast max_turns history).map (fun m => ⟨m.role, m.content⟩)

/-- The ValueError raised by run/handoff on an unregistered name. -/
inductive RunError where
  | agentNotFound (agent_name : String) : RunError
deriving DecidableEq, Repr

/-- Python truthiness of an Optional[Dict]: None and the empty dict are falsy
(the `if context_variables:` test of line 127 and line 244). -/
def ctxTruthy {α : Type} : Option (List (String × α)) → Bool
  | none => false
  | some c => !c.isEmpty

/-- The conditional context merge of lines 126-128 and 244-245. -/
def mergeContext (cv : List (String × JVal))
    (ctx : Option (List (String × JVal))) : List (String × JVal) :=
  match ctx with
  | none => cv
  | some c => if c.isEmpty then cv else dupdate cv c

/-- Swarm.run (lines 105-189).  Raises agentNotFound before any mutation;
otherwise merges the context overrides, appends the input messages, builds
the windowed outbound request and calls the remote capability.  On remote
success the assistant reply is appended to history and wrapped in a
SwarmResult; on remote failure the exception is absorbed into a degraded
assistant Message carrying the error text, which is placed in the returned
SwarmResult but NOT appended to history (the except branch of lines 178-189
has no add_message call).  Both result branches copy the context. -/
def Swarm.run (remote : Remote) (s : Swarm) (agent_name : String)
    (messages : List Message) (context_variables : Option (List (String × JVal)))
    (max_turns : Nat) (now : String) :
    Except (RunError × Swarm) (Swarm × SwarmResult) :=
  match dlookup agent_name s.agents with
  | none => .error (.agentNotFound agent_name, s)
  | some agent =>
    let s₁ : Swarm :=
      { s with context_variables := mergeContext s.context_variables context_variables }
    let s₂ : Swarm :=
      { s₁ with conversation_history := s₁.conversation_history ++ messages }
    let api_messages := buildApiMessages agent max_turns s₂.conversation_history
    match remote api_messages with
    | .ok content =>
      let response_msg : Message :=
        { role := "assistant", content := content, name := some agent.name,
          function_call := none, timestamp := now }
      let s₃ : Swarm :=
        { s₂ with conversation_history := s₂.conversation_history ++ [response_msg] }
      .ok (s₃, ⟨[response_msg], agent, s₃.context_variables⟩)
    | .error e =>
      let error_msg : Message :=
        { role := "assistant", content := "Error: " ++ e, name := some agent.name,
          function_call := none, timestamp := now }
      .ok (s₂, ⟨[error_msg], agent, s₂.context_variables⟩)

/-- Lines 257-259: the last message of a result becomes the next text fed
forward, and the current text is kept when the result has no messages. -/
def nextMessageContent (result : SwarmResult) (current_message : String) :
    String :=
  match result.messages.getLast? with
  | some m => m.content
  | none => current_message

/-- The loop body of Swarm.multi_agent_run (lines 247-261): one user Message
per agent carrying the current text, run with default max_turns = 10 and no
context overrides, and the last message of each result becomes the next
text when the result has messages. -/
def Swarm.multiAgentRunGo (remote : Remote) :
    Swarm → List String → String → String →
    Except (RunError × Swarm) (Swarm × List SwarmResult)
  | s, [], _, _ => .ok (s, [])
  | s, agent_name :: rest, current_message, now =>
    let msg : Message :=
      { role := "user", content := current_message, name := none,
        function_call := none, timestamp := now }
    match Swarm.run remote s agent_name [msg] none 10 now with
    | .error err => .error err
    | .ok (s₁, result) =>
      match Swarm.multiAgentRunGo remote s₁ rest
          (nextMessageContent result current_message) now with
      | .error err => .error err
      | .ok (s₂, results) => .ok (s₂, result :: results)

/-- Swarm.multi_agent_run (lines 226-261): merges the optional context
overrides once, then runs the agents sequentially. -/
def Swarm.multi_agent_run (remote : Remote) (s : Swarm)
    (agent_sequence : List String) (initial_message : String)
    (context_variables : Option (List (String × JVal))) (now : String) :
    Except (RunError × Swarm) (Swarm × List SwarmResult) :=
  let s₀ : Swarm :=
    { s with context_variables := mergeContext s.context_variables context_variables }
  Swarm.multiAgentRunGo remote s₀ agent_sequence initial_message now

/-- The JSON document written by save_state (lines 263-274). -/
structure SavedState where
  agents : List (String × Agent)
  conversation_history : List Message
  context_variables : List (String × JVal)
  timestamp : String

/-- Swarm.save_state (lines 263-274).  `asdict` keeps the functions list
inside each agent record, and `json.dump` raises TypeError on any callable;
serialization therefore succeeds exactly when every registered agent has an
empty functions list, in which case the document reproduces every field
(the JSON round trip is the identity on serializable data). -/
def Swarm.save_state (s : Swarm) (now : String) : Except String SavedState :=
  if s.agents.all (fun na => na.2.functions.isEmpty) then
    .ok ⟨s.agents, s.conversation_history, s.context_variables, now⟩
  else
    .error "Object of type function is not JSON serializable"

/-- Swarm.load_state (lines 276-296): fully replaces the registry, the
history and the context with the loaded document. -/
def Swarm.load_state (d : SavedState) : Swarm :=
  ⟨d.agents, d.conversation_history, d.context_variables⟩

/-- A sequence of add_agent calls, in order. -/
def addAgents (s : Swarm) (agents : List Agent) : Swarm :=
  agents.foldl Swarm.add_agent s

/-- A Swarm directly after construction: empty registry, history, context. -/
def emptySwarm : Swarm := ⟨[], [], []⟩

/-! ## Association-list lemmas (CPython dict semantics) -/

theorem dlookup_dinsert_self {κ α : Type} [DecidableEq κ] (k : κ) (v : α)
    (d : List (κ × α)) : dlookup k (dinsert k v d) = some v := by
  induction d with
  | nil => simp [dinsert, dlookup]
  | cons p rest ih =>
    by_cases h : p.1 = k
    · simp [dinsert, dlookup, h]
    · simpa [dinsert, dlookup, h] using ih

theorem dlookup_dinsert_ne {κ α : Type} [DecidableEq κ] (k k₁ : κ) (v : α)
    (d : List (κ × α)) (hne : k₁ ≠ k) :
    dlookup k₁ (dinsert k v d) = dlookup k₁ d := by
  induction d with
  | nil =>
    simp only [dinsert, dlookup]
    rw [if_neg (fun h => hne h.symm)]
  | cons p rest ih =>
    obtain ⟨pk, pv⟩ := p
    by_cases h : pk = k
    · subst h
      simp only [dinsert, if_pos rfl, dlookup]
      rw [if_neg (fun h₁ => hne h₁.symm), if_neg (fun h₁ => hne h₁.symm)]
    · simp only [dinsert, if_neg h, dlookup]
      by_cases h₁ : pk = k₁
      · rw [if_pos h₁, if_pos h₁]
      · rw [if_neg h₁, if_neg h₁, ih]

theorem mem_keys_dinsert {κ α : Type} [DecidableEq κ] (n k : κ) (v : α)
    (d : List (κ × α)) :
    n ∈ (dinsert k v d).map Prod.fst ↔ n = k ∨ n ∈ d.map Prod.fst := by
  induction d with
  | nil => simp [dinsert]
  | cons p rest ih =>
    obtain ⟨pk, pv⟩ := p
    by_cases h : pk = k
    · subst h
      have hins : dinsert pk v ((pk, pv) :: rest) = (pk, v) :: rest := by
        simp [dinsert]
      rw [hins]
      simp only [List.map_cons, List.mem_cons]
      tauto
    · have hins : dinsert k v ((pk, pv) :: rest) = (pk, pv) :: dinsert k v rest := by
        simp [dinsert, h]
      rw [hins]
      simp only [List.map_cons, List.mem_cons, ih]
      tauto

theorem keys_dinsert_mem {κ α : Type} [DecidableEq κ] (k : κ) (v : α)
    (d : List (κ × α)) (h : k ∈ d.map Prod.fst) :
    (dinsert k v d).map Prod.fst = d.map Prod.fst := by
  induction d with
  | nil => simp at h
  | cons p rest ih =>
    obtain ⟨pk, pv⟩ := p
    by_cases hp : pk = k
    · subst hp
      simp [dinsert]
    · simp only [List.map_cons, List.mem_cons] at h
      rcases h with h | h
      · exact absurd h.symm hp
      · simp only [dinsert, if_neg hp, List.map_cons, ih h]

theorem keys_dinsert_not_mem {κ α : Type} [DecidableEq κ] (k : κ) (v : α)
    (d : List (κ × α)) (h : k ∉ d.map Prod.fst) :
    (dinsert k v d).map Prod.fst = d.map Prod.fst ++ [k] := by
  induction d with
  | nil => simp [dinsert]
  | cons p rest ih =>
    obtain ⟨pk, pv⟩ := p
    by_cases hp : pk = k
    · exact absurd (by simp [hp]) h
    · simp only [dinsert, if_neg hp, List.map_cons, List.cons_append,
        List.cons.injEq, true_and]
      exact ih (fun hmem => h (by simp [hmem]))

theorem nodup_keys_dinsert {κ α : Type} [DecidableEq κ] (k : κ) (v : α)
    (d : List (κ × α)) (h : (d.map Prod.fst).Nodup) :
    ((dinsert k v d).map Prod.fst).Nodup := by
  by_cases hk : k ∈ d.map Prod.fst
  · rw [keys_dinsert_mem k v d hk]; exact h
  · rw [keys_dinsert_not_mem k v d hk]
    apply List.Nodup.append h (List.nodup_singleton k)
    intro a ha hak
    rw [List.mem_singleton] at hak
    exact hk (hak ▸ ha)

/-- A registered name makes run return ok for EVERY remote outcome (both the
success branch and the absorbed-failure branch of lines 150-189), with the
registered agent in the result and the registry untouched. -/
theorem run_registered (remote : Remote) (s : Swarm) (n : String) (ag : Agent)
    (msgs : List Message) (ctx : Option (List (String × JVal))) (mt : Nat)
    (now : String) (h : dlookup n s.agents = some ag) :
    ∃ s₁ r, Swarm.run remote s n msgs ctx mt now = .ok (s₁, r) ∧
      r.agent = ag ∧ s₁.agents = s.agents := by
  simp only [Swarm.run, h]
  cases hrem : remote (buildApiMessages ag mt (s.conversation_history ++ msgs)) with
  | ok content => exact ⟨_, _, rfl, rfl, rfl⟩
  | error e => exact ⟨_, _, rfl, rfl, rfl⟩

/-! ## C3: unregistered agent name -/

/-- C3: invoking run with a name absent from the registry fails with
agentNotFound and the state carried out at the raise is exactly the state
before the call: the conversation history and the context variables are
untouched (the membership check of line 121 precedes every mutation). -/
theorem run_unregistered_atomic (remote : Remote) (s : Swarm)
    (agent_name : String) (messages : List Message)
    (ctx : Option (List (String × JVal))) (max_turns : Nat) (now : String)
    (h : dlookup agent_name s.agents = none) :
    Swarm.run remote s agent_name messages ctx max_turns now =
      .error (.agentNotFound agent_name, s) := by
  unfold Swarm.run
  rw [h]

/-- Concrete instance of run_unregistered_atomic: the name ghost is not in
the empty registry, the call errors and returns the untouched state. -/
theorem run_unregistered_atomic_witness :
    Swarm.run (fun _ => .error "boom") emptySwarm "ghost" [] none 10 "t" =
      .error (.agentNotFound "ghost", emptySwarm) :=
  run_unregistered_atomic (fun _ => .error "boom") emptySwarm "ghost" [] none 10 "t" rfl

/-! ## C7: credential handling at construction -/

/-- C7: construction fails with the missing-credential error exactly when
neither the explicit api_key parameter nor the environment value is a truthy
string; with a credential, construction succeeds with the empty state; and a
run call can only ever fail with agentNotFound, never with a credential
error (remote failures, auth included, are absorbed into the result). -/
theorem mkSwarm_credential_check (api_key env_key : Option String) :
    (mkSwarm api_key env_key = .error .missingApiKey ↔
      strTruthy api_key = false ∧ strTruthy env_key = false) ∧
    (strTruthy api_key = true ∨ strTruthy env_key = true →
      mkSwarm api_key env_key = .ok emptySwarm) ∧
    (∀ (remote : Remote) (s : Swarm) (n : String) (msgs : List Message)
       (ctx : Option (List (String × JVal))) (mt : Nat) (now : String)
       (err : RunError) (s₁ : Swarm),
       Swarm.run remote s n msgs ctx mt now = .error (err, s₁) →
       err = RunError.agentNotFound n) := by
  refine ⟨?_, ?_, ?_⟩
  · cases hA : strTruthy api_key <;> cases hE : strTruthy env_key <;>
      simp [mkSwarm, hA, hE, emptySwarm]
  · intro h
    rcases h with h | h
    · simp [mkSwarm, h, emptySwarm]
    · cases hA : strTruthy api_key <;> simp [mkSwarm, hA, h, emptySwarm]
  · intro remote s n msgs ctx mt now err s₁ hrun
    cases hl : dlookup n s.agents with
    | none =>
      simp only [Swarm.run, hl, Except.error.injEq, Prod.mk.injEq] at hrun
      exact hrun.1.symm
    | some ag =>
      obtain ⟨s₂, r, hok, _, _⟩ := run_registered remote s n ag msgs ctx mt now hl
      rw [hok] at hrun
      exact absurd hrun (by simp)

/-- Concrete instance of mkSwarm_credential_check: no parameter and no
environment value errors; an explicit key succeeds. -/
theorem mkSwarm_credential_check_witness :
    mkSwarm none none = .error ConfigError.missingApiKey ∧
    mkSwarm (some "sk-test") none = .ok emptySwarm :=
  ⟨(mkSwarm_credential_check none none).1.mpr ⟨rfl, rfl⟩,
   (mkSwarm_credential_check (some "sk-test") none).2.1 (Or.inl rfl)⟩

/-! ## C8: max_turns = 0 keeps the whole history -/

/-- C8: with max_turns = 0 the slice of line 144 is the Python slice taking
the last 0 elements, which is the WHOLE list, so the outbound request built
by run holds the entire stored history after the system turn, not an empty
window. -/
theorem run_max_turns_zero_full_window (agent : Agent)
    (history : List Message) (hne : history ≠ []) :
    buildApiMessages agent 0 history =
      ApiMsg.mk "system" agent.instructions ::
        history.map (fun m => ApiMsg.mk m.role m.content) ∧
    (buildApiMessages agent 0 history).length = history.length + 1 := by
  constructor
  · simp [buildApiMessages, pySliceLast]
  · simp [buildApiMessages, pySliceLast]

/-- Concrete instance of run_max_turns_zero_full_window on a one-message
history. -/
theorem run_max_turns_zero_full_window_witness :
    ([Message.mk "user" "hi" none none "t"] ≠ ([] : List Message)) ∧
    (buildApiMessages (Agent.mk "A" "inst" [] "gpt-4" (7/10) 1000) 0
        [Message.mk "user" "hi" none none "t"] =
      ApiMsg.mk "system" (Agent.mk "A" "inst" [] "gpt-4" (7/10) 1000).instructions ::
        [Message.mk "user" "hi" none none "t"].map
          (fun m => ApiMsg.mk m.role m.content) ∧
     (buildApiMessages (Agent.mk "A" "inst" [] "gpt-4" (7/10) 1000) 0
        [Message.mk "user" "hi" none none "t"]).length =
       [Message.mk "user" "hi" none none "t"].length + 1) :=
  ⟨by simp,
   run_max_turns_zero_full_window (Agent.mk "A" "inst" [] "gpt-4" (7/10) 1000)
     [Message.mk "user" "hi" none none "t"] (by simp)⟩

/-! ## C10: multi_agent_run on the empty sequence -/

/-- C10: multi_agent_run with an empty agent sequence returns the empty
result list, leaves the conversation history unchanged, and still performs
the context merge of lines 244-245; for any supplied override dict the
resulting context equals the dict update of the store (for the empty
override the skipped merge coincides with the vacuous update). -/
theorem multi_agent_run_empty_sequence (remote : Remote) (s : Swarm)
    (initial : String) (ctx : Option (List (String × JVal))) (now : String) :
    Swarm.multi_agent_run remote s [] initial ctx now =
      .ok ({ s with context_variables := mergeContext s.context_variables ctx }, []) ∧
    ({ s with context_variables := mergeContext s.context_variables ctx } : Swarm).conversation_history
      = s.conversation_history ∧
    (∀ c, ctx = some c →
      mergeContext s.context_variables ctx = dupdate s.context_variables c) := by
  refine ⟨rfl, rfl, ?_⟩
  intro c hc
  subst hc
  by_cases h : c.isEmpty
  · have hc : c = [] := by simpa using h
    subst hc
    simp [mergeContext, dupdate]
  · simp [mergeContext, h]

/-- Concrete instance of multi_agent_run_empty_sequence with a supplied
context override and no agents. -/
theorem multi_agent_run_empty_sequence_witness :
    Swarm.multi_agent_run (fun _ => .error "down") emptySwarm [] "go"
        (some [("k", JVal.jint 1)]) "t" =
      .ok ({ emptySwarm with
              context_variables :=
                mergeContext emptySwarm.context_variables (some [("k", JVal.jint 1)]) }, []) ∧
    mergeContext emptySwarm.context_variables (some [("k", JVal.jint 1)]) =
      dupdate emptySwarm.context_variables [("k", JVal.jint 1)] :=
  ⟨(multi_agent_run_empty_sequence (fun _ => .error "down") emptySwarm "go"
      (some [("k", JVal.jint 1)]) "t").1,
   (multi_agent_run_empty_sequence (fun _ => .error "down") emptySwarm "go"
      (some [("k", JVal.jint 1)]) "t").2.2 [("k", JVal.jint 1)] rfl⟩

/-! ## C5: registry under repeated add_agent -/

theorem addAgents_agents (s : Swarm) (agents : List Agent) :
    (addAgents s agents).agents =
      agents.foldl (fun acc a => dinsert a.name a acc) s.agents := by
  induction agents generalizing s with
  | nil => rfl
  | cons a rest ih =>
    show (addAgents (s.add_agent a) rest).agents = _
    rw [ih (s.add_agent a)]
    rfl

theorem mem_keys_foldl (agents : List Agent) (d : List (String × Agent))
    (n : String) :
    n ∈ (agents.foldl (fun acc a => dinsert a.name a acc) d).map Prod.fst ↔
      n ∈ d.map Prod.fst ∨ n ∈ agents.map Agent.name := by
  induction agents generalizing d with
  | nil => simp
  | cons a rest ih =>
    rw [List.foldl_cons, ih (dinsert a.name a d)]
    simp only [mem_keys_dinsert, List.map_cons, List.mem_cons]
    tauto

theorem nodup_keys_foldl (agents : List Agent) (d : List (String × Agent))
    (h : (d.map Prod.fst).Nodup) :
    ((agents.foldl (fun acc a => dinsert a.name a acc) d).map Prod.fst).Nodup := by
  induction agents generalizing d with
  | nil => exact h
  | cons a rest ih => exact ih _ (nodup_keys_dinsert _ _ _ h)

theorem dlookup_foldl_dinsert (agents : List Agent) (d : List (String × Agent))
    (n : String) :
    dlookup n (agents.foldl (fun acc a => dinsert a.name a acc) d) =
      (agents.reverse.find? (fun a => a.name == n)).or (dlookup n d) := by
  induction agents generalizing d with
  | nil => simp
  | cons a rest ih =>
    rw [List.foldl_cons, ih (dinsert a.name a d), List.reverse_cons,
      List.find?_append]
    cases hfind : rest.reverse.find? (fun x => x.name == n) with
    | some b => simp
    | none =>
      by_cases hpa : a.name = n
      · simp [List.find?_cons, hpa, dlookup_dinsert_self]
      · have hb : (a.name == n) = false := by
          simpa using hpa
        simp [List.find?_cons, hb,
          dlookup_dinsert_ne a.name n a d (fun h => hpa h.symm)]

/-- C5: after any sequence of add_agent calls on a fresh swarm, possibly with
duplicate names, list_agents holds exactly the distinct names of the
sequence (each once), and get_agent on any name returns the most recently
added agent bearing that name (the first match scanning the sequence
backwards), so the last write wins on duplicates. -/
theorem add_agent_registry_invariant (agents : List Agent) :
    ((addAgents emptySwarm agents).list_agents.Nodup) ∧
    (∀ n, n ∈ (addAgents emptySwarm agents).list_agents ↔
      n ∈ agents.map Agent.name) ∧
    (∀ n, (addAgents emptySwarm agents).get_agent n =
      agents.reverse.find? (fun a => a.name == n)) := by
  have hag : (addAgents emptySwarm agents).agents =
      agents.foldl (fun acc a => dinsert a.name a acc) [] :=
    addAgents_agents emptySwarm agents
  refine ⟨?_, ?_, ?_⟩
  · rw [Swarm.list_agents, hag]
    exact nodup_keys_foldl agents [] (by simp)
  · intro n
    rw [Swarm.list_agents, hag]
    simpa using mem_keys_foldl agents [] n
  · intro n
    rw [Swarm.get_agent, hag, dlookup_foldl_dinsert]
    simp [dlookup]

/-! ## C2: persistence round trip and the callable slip -/

/-- An identity text-to-text capability: a concrete non-serializable callable. -/
def idCallable : Callable := fun s => s

def buggyAgent : Agent := ⟨"B", "inst", [idCallable], "gpt-4", 7/10, 1000⟩

def buggySwarm : Swarm := ⟨[("B", buggyAgent)], [], []⟩

/-- C2: evaluating save_state on a swarm whose registered agent has a
non-empty functions list: asdict keeps the callables and json.dump raises
TypeError, so persistence fails instead of dropping the callables as the
round-trip contract requires. -/
theorem save_state_nonempty_functions_error :
    Swarm.save_state buggySwarm "t" =
      .error "Object of type function is not JSON serializable" := rfl

/-- For serializable states (every functions list empty) the round trip does
hold: load_state after save_state reproduces the agents, the history in
order, and the context pairs exactly. -/
theorem save_load_round_trip (s : Swarm) (now : String)
    (h : s.agents.all (fun na => na.2.functions.isEmpty) = true) :
    ∃ d, Swarm.save_state s now = .ok d ∧ Swarm.load_state d = s := by
  refine ⟨⟨s.agents, s.conversation_history, s.context_variables, now⟩, ?_, rfl⟩
  simp [Swarm.save_state, h]

/-! ## C1: remote failure is absorbed, but the degraded message is
not appended to history -/

def cexAgent : Agent := ⟨"A", "inst", [], "gpt-4", 7/10, 1000⟩

def cexSwarm : Swarm := ⟨[("A", cexAgent)], [], []⟩

def cexMsg : Message := ⟨"user", "hi", none, none, "t0"⟩

def cexDegraded : Message := ⟨"assistant", "Error: boom", some "A", none, "t1"⟩

/-- C1 counterexample: with agent A registered, an empty history and a remote
that always fails, run returns normally, but the final stored history holds
ONLY the input message: the degraded assistant message exists solely inside
the returned result and is not appended to the conversation history, and the
result carries no marker beyond its content text. -/
theorem run_remote_failure_not_appended_cex :
    Swarm.run (fun _ => .error "boom") cexSwarm "A" [cexMsg] none 10 "t1" =
      .ok (⟨[("A", cexAgent)], [cexMsg], []⟩, ⟨[cexDegraded], cexAgent, []⟩) ∧
    cexDegraded ∉ [cexMsg] := by
  exact ⟨rfl, by decide⟩

/-- C1 amended: a remote failure during run of a registered agent never
propagates as an exception: run returns ok with exactly one degraded
assistant Message whose content is the textual error description prefixed
with Error: and whose name attributes it to the invoked agent; the history
gains only the input messages (the degraded message is NOT appended, since
the except branch of lines 178-189 never calls add_message), and the result
is distinguishable only by its content text, there being no dedicated
error-indicator field on SwarmResult. -/
theorem run_remote_failure_degraded (remote : Remote) (s : Swarm)
    (agent_name : String) (agent : Agent) (messages : List Message)
    (ctx : Option (List (String × JVal))) (max_turns : Nat) (now : String)
    (e : String)
    (hreg : dlookup agent_name s.agents = some agent)
    (hfail : ∀ ms, remote ms = .error e) :
    Swarm.run remote s agent_name messages ctx max_turns now =
      .ok ({ agents := s.agents,
             conversation_history := s.conversation_history ++ messages,
             context_variables := mergeContext s.context_variables ctx },
           ⟨[⟨"assistant", "Error: " ++ e, some agent.name, none, now⟩], agent,
             mergeContext s.context_variables ctx⟩) := by
  simp only [Swarm.run, hreg, hfail]

/-- Concrete instance of run_remote_failure_degraded. -/
theorem run_remote_failure_degraded_witness :
    dlookup "A" cexSwarm.agents = some cexAgent ∧
    Swarm.run (fun _ => .error "boom") cexSwarm "A" [cexMsg] none 10 "t1" =
      .ok ({ agents := cexSwarm.agents,
             conversation_history := cexSwarm.conversation_history ++ [cexMsg],
             context_variables := mergeContext cexSwarm.context_variables none },
           ⟨[⟨"assistant", "Error: " ++ "boom", some cexAgent.name, none, "t1"⟩],
             cexAgent, mergeContext cexSwarm.context_variables none⟩) :=
  ⟨rfl, run_remote_failure_degraded (fun _ => .error "boom") cexSwarm "A"
    cexAgent [cexMsg] none 10 "t1" "boom" rfl (fun _ => rfl)⟩

/-! ## C6: the history window sent to the remote API -/

/-- C6: for a positive limit the window of line 144 is the last
min(limit, n) stored messages in their original order (the stored history
splits as an untouched prefix followed by the window), and run only ever
extends the stored history (the window is a read view used for the outbound
request; the stored sequence is never truncated by taking it). -/
theorem snapshot_window_last_min (history : List Message) (limit : Nat)
    (hpos : 0 < limit) :
    (pySliceLast limit history).length = min limit history.length ∧
    history.take (history.length - limit) ++ pySliceLast limit history = history ∧
    (∀ (remote : Remote) (s : Swarm) (n : String) (msgs : List Message)
       (now : String) (res : Swarm × SwarmResult),
       s.conversation_history = history →
       Swarm.run remote s n msgs none limit now = .ok res →
       ∃ tail, res.1.conversation_history = history ++ tail) := by
  have hne : limit ≠ 0 := Nat.pos_iff_ne_zero.mp hpos
  refine ⟨?_, ?_, ?_⟩
  · simp only [pySliceLast, if_neg hne, List.length_drop]
    omega
  · simp only [pySliceLast, if_neg hne, List.take_append_drop]
  · intro remote s n msgs now res hhist hok
    cases hl : dlookup n s.agents with
    | none =>
      simp only [Swarm.run, hl] at hok
      exact absurd hok (by simp)
    | some ag =>
      simp only [Swarm.run, hl] at hok
      cases hrem : remote (buildApiMessages ag limit (s.conversation_history ++ msgs)) with
      | ok content =>
        rw [hrem] at hok
        simp only [Except.ok.injEq] at hok
        subst hok
        exact ⟨msgs ++ [⟨"assistant", content, some ag.name, none, now⟩],
          by rw [← hhist]; simp⟩
      | error e =>
        rw [hrem] at hok
        simp only [Except.ok.injEq] at hok
        subst hok
        exact ⟨msgs, by rw [← hhist]⟩

def hist5 : List Message :=
  [⟨"user", "m1", none, none, "t1"⟩, ⟨"assistant", "m2", some "A", none, "t2"⟩,
   ⟨"user", "m3", none, none, "t3"⟩, ⟨"assistant", "m4", some "A", none, "t4"⟩,
   ⟨"user", "m5", none, none, "t5"⟩]

/-- Concrete instance of snapshot_window_last_min: limit 2 on a 5-message
history keeps exactly the last 2 messages in order and the stored history
splits as the untouched first 3 plus those 2. -/
theorem snapshot_window_last_min_witness :
    0 < 2 ∧
    ((pySliceLast 2 hist5).length = min 2 hist5.length ∧
     hist5.take (hist5.length - 2) ++ pySliceLast 2 hist5 = hist5 ∧
     (∀ (remote : Remote) (s : Swarm) (n : String) (msgs : List Message)
        (now : String) (res : Swarm × SwarmResult),
        s.conversation_history = hist5 →
        Swarm.run remote s n msgs none 2 now = .ok res →
        ∃ tail, res.1.conversation_history = hist5 ++ tail)) :=
  ⟨by decide, snapshot_window_last_min hist5 2 (by decide)⟩

/-! ## C4: sequential multi-agent chaining -/

/-- A stub remote capability that echoes the content of its last input turn. -/
def echoRemote : Remote := fun ms => .ok ((ms.getLast?.map ApiMsg.content).getD "")

def agA : Agent := ⟨"A", "instrA", [], "gpt-4", 7/10, 1000⟩

def agB : Agent := ⟨"B", "instrB", [], "gpt-4", 7/10, 1000⟩

def abSwarm : Swarm := ⟨[("A", agA), ("B", agB)], [], []⟩

def c4u1 : Message := ⟨"user", "start", none, none, "t"⟩

def c4a1 : Message := ⟨"assistant", "start", some "A", none, "t"⟩

def c4u2 : Message := ⟨"user", "start", none, none, "t"⟩

def c4a2 : Message := ⟨"assistant", "start", some "B", none, "t"⟩

def c4e1 : Message := ⟨"assistant", "Error: x", some "A", none, "t"⟩

def c4u2e : Message := ⟨"user", "Error: x", none, none, "t"⟩

def c4e2 : Message := ⟨"assistant", "Error: x", some "B", none, "t"⟩

/-- When every name of the sequence is registered, the loop returns ok for
EVERY remote behaviour, with one result per name in sequence order, each
result carrying the registered agent of its name, and the registry is left
unchanged. -/
theorem multiAgentRunGo_all_registered (remote : Remote) (seq : List String) :
    ∀ (s : Swarm) (cur now : String),
    (∀ n, n ∈ seq → (dlookup n s.agents).isSome = true) →
    ∃ s₁ results,
      Swarm.multiAgentRunGo remote s seq cur now = .ok (s₁, results) ∧
      results.map (fun r => some r.agent) = seq.map (fun n => dlookup n s.agents) ∧
      s₁.agents = s.agents := by
  induction seq with
  | nil =>
    intro s cur now _
    exact ⟨s, [], rfl, rfl, rfl⟩
  | cons a rest ih =>
    intro s cur now hreg
    obtain ⟨ag, hag⟩ := Option.isSome_iff_exists.mp (hreg a (by simp))
    obtain ⟨s₁, r, hok, hragent, hsag⟩ :=
      run_registered remote s a ag [⟨"user", cur, none, none, now⟩] none 10 now hag
    have hreg₁ : ∀ n, n ∈ rest → (dlookup n s₁.agents).isSome = true := by
      intro n hn
      rw [hsag]
      exact hreg n (by simp [hn])
    obtain ⟨s₂, results, hgo, hmap, hsag₂⟩ :=
      ih s₁ (nextMessageContent r cur) now hreg₁
    refine ⟨s₂, r :: results, ?_, ?_, hsag₂.trans hsag⟩
    · simp only [Swarm.multiAgentRunGo, hok, hgo]
    · simp only [List.map_cons, List.cons.injEq]
      refine ⟨?_, ?_⟩
      · rw [hragent, hag]
      · rw [hmap, hsag]

/-- C4: for every sequence of registered names and every remote behaviour
(degraded results included), multi_agent_run returns ok with exactly one
result per agent, in sequence order, each carrying the registered agent of
its name; and concretely, with agents A and B and a remote echoing its last
input turn, the second agent receives as its sole user input exactly the
first agent output (and with an always-failing remote the degraded error
text of A is fed verbatim to B). -/
theorem multi_agent_run_sequence (remote : Remote) (s : Swarm)
    (seq : List String) (initial : String)
    (ctx : Option (List (String × JVal))) (now : String)
    (hreg : ∀ n, n ∈ seq → (dlookup n s.agents).isSome = true) :
    (∃ s₁ results,
      Swarm.multi_agent_run remote s seq initial ctx now = .ok (s₁, results) ∧
      results.length = seq.length ∧
      results.map (fun r => some r.agent) = seq.map (fun n => dlookup n s.agents)) ∧
    (Swarm.multi_agent_run echoRemote abSwarm ["A", "B"] "start" none "t" =
      .ok (⟨[("A", agA), ("B", agB)], [c4u1, c4a1, c4u2, c4a2], []⟩,
           [⟨[c4a1], agA, []⟩, ⟨[c4a2], agB, []⟩]) ∧
      c4u2.content = c4a1.content) ∧
    (Swarm.multi_agent_run (fun _ => .error "x") abSwarm ["A", "B"] "start" none "t" =
      .ok (⟨[("A", agA), ("B", agB)], [c4u1, c4u2e], []⟩,
           [⟨[c4e1], agA, []⟩, ⟨[c4e2], agB, []⟩]) ∧
      c4u2e.content = c4e1.content) := by
  refine ⟨?_, ⟨rfl, rfl⟩, ⟨rfl, rfl⟩⟩
  obtain ⟨s₁, results, hgo, hmap, hagents⟩ :=
    multiAgentRunGo_all_registered remote seq
      { s with context_variables := mergeContext s.context_variables ctx }
      initial now (fun n hn => hreg n hn)
  refine ⟨s₁, results, hgo, ?_, hmap⟩
  have hlen := congrArg List.length hmap
  simpa using hlen

/-- Concrete instance of multi_agent_run_sequence: both A and B registered,
echo remote, two results in order. -/
theorem multi_agent_run_sequence_witness :
    (∀ n, n ∈ (["A", "B"] : List String) →
      (dlookup n abSwarm.agents).isSome = true) ∧
    (∃ s₁ results,
      Swarm.multi_agent_run echoRemote abSwarm ["A", "B"] "start" none "t" =
        .ok (s₁, results) ∧
      results.length = (["A", "B"] : List String).length ∧
      results.map (fun r => some r.agent) =
        (["A", "B"] : List String).map (fun n => dlookup n abSwarm.agents)) :=
  ⟨by decide,
   (multi_agent_run_sequence echoRemote abSwarm ["A", "B"] "start" none "t"
     (by decide)).1⟩

/-! ## C9: the result context is a shallow top-level copy

The `self.context_variables.copy()` of lines 175 and 188 is a SHALLOW dict
copy: aliasing only matters here, so this claim is settled over an explicit
heap model of Python objects.  A dict or a list lives at a heap address;
dict slots hold primitives or addresses.  `dict.copy()` allocates a fresh
address holding the same top-level entries, so nested addresses stay
shared. -/

abbrev Addr := Nat

/-- A Python runtime value held in a dict slot: a primitive, or a reference
to a heap object (nested dicts and lists are references in Python). -/
inductive HVal where
  | prim (v : JVal) : HVal
  | addr (a : Addr) : HVal
deriving DecidableEq, Repr

/-- A heap object: a string-keyed dict or a list. -/
inductive HObj where
  | dict (entries : List (String × HVal)) : HObj
  | arr (items : List HVal) : HObj
deriving DecidableEq, Repr

abbrev Heap := List (Addr × HObj)

def heapGet (h : Heap) (a : Addr) : Option HObj := dlookup a h

def heapSet (h : Heap) (a : Addr) (o : HObj) : Heap := dinsert a o h

/-- An address not yet used by any allocated object. -/
def freshAddr : Heap → Addr
  | [] => 0
  | (a, _) :: rest => max (a + 1) (freshAddr rest)

/-- dict.copy() of lines 175 and 188: a NEW dict object (fresh address) with
the same top-level entries; nested references are shared, not cloned. -/
def dictCopy (h : Heap) (a : Addr) : Heap × Addr :=
  match heapGet h a with
  | some (.dict es) => (heapSet h (freshAddr h) (.dict es), freshAddr h)
  | _ => (h, a)

/-- set_context (line 90) on the dict at address a: d[k] = v in place. -/
def dictSetKey (h : Heap) (a : Addr) (k : String) (v : HVal) : Heap :=
  match heapGet h a with
  | some (.dict es) => heapSet h a (.dict (dinsert k v es))
  | _ => h

/-- Reading key k through the dict at address a. -/
def dictGetKey (h : Heap) (a : Addr) (k : String) : Option HVal :=
  match heapGet h a with
  | some (.dict es) => dlookup k es
  | _ => none

/-- In-place mutation of a nested mutable value: list.append on the object
at address a. -/
def listAppendAt (h : Heap) (a : Addr) (v : HVal) : Heap :=
  match heapGet h a with
  | some (.arr items) => heapSet h a (.arr (items ++ [v]))
  | _ => h

theorem heapGet_heapSet_self (h : Heap) (a : Addr) (o : HObj) :
    heapGet (heapSet h a o) a = some o :=
  dlookup_dinsert_self a o h

theorem heapGet_heapSet_ne (h : Heap) (a b : Addr) (o : HObj) (hne : b ≠ a) :
    heapGet (heapSet h a o) b = heapGet h b :=
  dlookup_dinsert_ne a b o h hne

theorem heapGet_lt_freshAddr (h : Heap) (a : Addr) (o : HObj)
    (hget : heapGet h a = some o) : a < freshAddr h := by
  induction h with
  | nil => simp [heapGet, dlookup] at hget
  | cons p rest ih =>
    obtain ⟨pa, po⟩ := p
    simp only [heapGet, dlookup] at hget
    by_cases hpa : pa = a
    · subst hpa
      exact Nat.lt_of_lt_of_le (Nat.lt_succ_self pa) (le_max_left _ _)
    · rw [if_neg hpa] at hget
      exact Nat.lt_of_lt_of_le (ih hget) (le_max_right _ _)

/-- C9: the context snapshot placed in a returned result is the shallow
copy of lines 175 and 188.  Copying the context dict at address a yields a
fresh, distinct address; a later set_context on the swarm dict (a top-level
rebind or addition) changes nothing readable through the snapshot; but an
in-place mutation of a nested mutable value reachable from the snapshot
(list.append on a shared address) is visible through the snapshot, which
still holds the same reference and now dereferences to the mutated object. -/
theorem result_context_shallow_copy (h : Heap) (a : Addr)
    (es : List (String × HVal)) (ha : heapGet h a = some (.dict es)) :
    dictCopy h a = (heapSet h (freshAddr h) (HObj.dict es), freshAddr h) ∧
    freshAddr h ≠ a ∧
    (∀ (k k₁ : String) (v : HVal),
      dictGetKey (dictSetKey (dictCopy h a).1 a k v) (dictCopy h a).2 k₁ =
        dictGetKey (dictCopy h a).1 (dictCopy h a).2 k₁) ∧
    (∀ (k : String) (b : Addr) (items : List HVal) (w : HVal),
      dictGetKey (dictCopy h a).1 (dictCopy h a).2 k = some (.addr b) →
      heapGet (dictCopy h a).1 b = some (.arr items) →
      dictGetKey (listAppendAt (dictCopy h a).1 b w) (dictCopy h a).2 k =
          some (.addr b) ∧
      heapGet (listAppendAt (dictCopy h a).1 b w) b =
          some (.arr (items ++ [w]))) := by
  have hfa : a < freshAddr h := heapGet_lt_freshAddr h a _ ha
  have hane : a ≠ freshAddr h := Nat.ne_of_lt hfa
  have hfne : freshAddr h ≠ a := Nat.ne_of_gt hfa
  have hcopy : dictCopy h a =
      (heapSet h (freshAddr h) (HObj.dict es), freshAddr h) := by
    simp [dictCopy, ha]
  have hga : heapGet (heapSet h (freshAddr h) (HObj.dict es)) a =
      some (HObj.dict es) := by
    rw [heapGet_heapSet_ne h (freshAddr h) a _ hane, ha]
  have hgf : heapGet (heapSet h (freshAddr h) (HObj.dict es)) (freshAddr h) =
      some (HObj.dict es) :=
    heapGet_heapSet_self h (freshAddr h) _
  refine ⟨hcopy, hfne, ?_, ?_⟩
  · intro k k₁ v
    rw [hcopy]
    simp only [dictSetKey, hga]
    simp only [dictGetKey, heapGet_heapSet_ne _ a (freshAddr h) _ hfne, hgf]
  · intro k b items w hk hb
    rw [hcopy] at hk hb ⊢
    have hbf : b ≠ freshAddr h := by
      intro hbeq
      rw [hbeq, hgf] at hb
      simp at hb
    constructor
    · simp only [listAppendAt, hb]
      simp only [dictGetKey, heapGet_heapSet_ne _ b (freshAddr h) _ (Ne.symm hbf), hgf]
      simpa only [dictGetKey, hgf] using hk
    · simp only [listAppendAt, hb]
      exact heapGet_heapSet_self _ b _

def c9entries : List (String × HVal) :=
  [("x", HVal.prim (JVal.jint 1)), ("lst", HVal.addr 1)]

def c9heap : Heap :=
  [(0, HObj.dict c9entries), (1, HObj.arr [HVal.prim (JVal.jint 7)])]

/-- Concrete instance of result_context_shallow_copy: a context dict at
address 0 holding a primitive and a reference to the list at address 1. -/
theorem result_context_shallow_copy_witness :
    heapGet c9heap 0 = some (HObj.dict c9entries) ∧
    (dictCopy c9heap 0 =
        (heapSet c9heap (freshAddr c9heap) (HObj.dict c9entries), freshAddr c9heap) ∧
     freshAddr c9heap ≠ 0 ∧
     (∀ (k k₁ : String) (v : HVal),
       dictGetKey (dictSetKey (dictCopy c9heap 0).1 0 k v) (dictCopy c9heap 0).2 k₁ =
         dictGetKey (dictCopy c9heap 0).1 (dictCopy c9heap 0).2 k₁) ∧
     (∀ (k : String) (b : Addr) (items : List HVal) (w : HVal),
       dictGetKey (dictCopy c9heap 0).1 (dictCopy c9heap 0).2 k = some (.addr b) →
       heapGet (dictCopy c9heap 0).1 b = some (.arr items) →
       dictGetKey (listAppendAt (dictCopy c9heap 0).1 b w) (dictCopy c9heap 0).2 k =
           some (.addr b) ∧
       heapGet (listAppendAt (dictCopy c9heap 0).1 b w) b =
           some (.arr (items ++ [w])))) :=
  ⟨rfl, result_context_shallow_copy c9heap 0 c9entries rfl⟩
